import Mathlib

/-!
Verification development for the NewFieldmax inventory ledger and
stock-consistency core.

The definitions below are a shallow embedding of the Python source:

* `sales/signals.py` — the reversal / deletion / item-deletion compensation
  handlers (`restore_product_on_reversal`, `restore_stock_on_sale_deletion`,
  `restore_stock_on_item_deletion`, `update_sale_totals_on_item_deletion`);
* `inventory/views.py` — `process_restock`, `ProductTransferView.post`,
  `ProductUpdateView.post`, `ProductCreateView.form_valid`;
* `inventory/serializers.py` — `StockEntrySerializer.validate`,
  `StockMovementSerializer.validate`.

Monetary amounts are modelled as integers (minor units); Django `Decimal`
arithmetic on these quantities is exact addition/multiplication, so nothing
relevant to the claims is lost.  Database rows are lists; a product row is
looked up by `find?` on its id (the `select_for_update().get(pk=...)` calls),
and saved by mapping over the product list.
-/

inductive ItemType where
  | single
  | bulk
deriving DecidableEq, Repr

inductive ProductStatus where
  | available
  | sold
  | lowstock
  | outofstock
deriving DecidableEq, Repr

/-- One `products` row (inventory/models.py `Product`; fields per the spec
§6 persisted-state layout and the serializers). -/
structure Product where
  id : Nat
  name : String := ""
  category_id : Nat := 0
  item_type : ItemType
  sku_value : String := ""
  quantity : Int
  status : ProductStatus
  buying_price : Int := 0
  selling_price : Int := 0
  owner_id : Nat := 0
  is_active : Bool := true
deriving DecidableEq, Repr

/-- One `stock_entries` ledger row.  `entry_type` is `none` where the source
calls `StockEntry.objects.create` without passing `entry_type` (the model
default is not visible under src/). -/
structure StockEntry where
  product_id : Nat
  quantity : Int
  entry_type : Option String := none
  unit_price : Int := 0
  total_amount : Int := 0
  reference_id : String := ""
deriving DecidableEq, Repr

/-- One `sale_items` row (sales/models.py `SaleItem`). -/
structure SaleItem where
  id : Nat
  product_id : Nat
  quantity : Int
  unit_price : Int := 0
  total_price : Int := 0
deriving DecidableEq, Repr

/-- One `sales` row (sales/models.py `Sale`), with its owned items. -/
structure Sale where
  sale_id : Nat
  items : List SaleItem
  is_reversed : Bool := false
  total_quantity : Int := 0
  subtotal : Int := 0
  tax_amount : Int := 0
  total_amount : Int := 0
deriving DecidableEq, Repr

/-- The persistent store: product rows and the append-only stock ledger. -/
structure InvState where
  products : List Product
  entries : List StockEntry
deriving DecidableEq, Repr

/-- `Product.objects.get(pk=pid)` (row lookup by id). -/
def getProduct (st : InvState) (pid : Nat) : Option Product :=
  st.products.find? (fun p => decide (p.id = pid))

/-- `product.save()` at the row level: replace the row with this id. -/
def saveProduct (st : InvState) (p : Product) : InvState :=
  { st with products := st.products.map (fun q => if q.id = p.id then p else q) }

/-- Append one ledger row (the pure write of `StockEntry.objects.create`). -/
def appendEntry (st : InvState) (e : StockEntry) : InvState :=
  { st with entries := st.entries ++ [e] }

/-- Sum of the signed deltas of all ledger entries recorded for a product. -/
def ledgerSum (st : InvState) (pid : Nat) : Int :=
  ((st.entries.filter (fun e => decide (e.product_id = pid))).map (fun e => e.quantity)).sum

/-- The bulk status thresholds, as written repeatedly in the source
(sales/signals.py lines 101-107, 207-213, 318-324): `quantity > 5` is
available, `quantity > 0` is lowstock, otherwise outofstock. -/
def bulk_status (q : Int) : ProductStatus :=
  if q > 5 then .available else if q > 0 then .lowstock else .outofstock

/-- Modelled from the spec: `Product.save` lives in `inventory/models.py`,
which is not under src/.  Per §4.2 and the package docstring
(`inventory/__init__.py`: automatic status updates based on quantity;
`inventory/signals.py` pre-save comment: enforce single item quantity,
update status in the model save method): a single-kind product is clamped
to quantity at most 1 with status available when positive and sold
otherwise; a bulk-kind product keeps its quantity and gets the threshold
status of §4.2. -/
def product_save (p : Product) : Product :=
  match p.item_type with
  | .single =>
      let q := min p.quantity 1
      { p with quantity := q, status := if q > 0 then .available else .sold }
  | .bulk => { p with status := bulk_status p.quantity }

/-- Modelled from the spec: the product-state side effect of
`StockEntry.save` lives in `inventory/models.py`, which is not under src/.
Per §4.1 every ledger append triggers a recomputation of the owning
product state in the same atomic unit (`inventory/__init__.py`:
`StockEntry.objects.create` auto-updates `product.quantity` and status).
Used for the call sites that rely on that side effect (restock, product
creation, the movement serializers, checkout); the sales/signals.py and
transfer/adjustment flows update the product row explicitly themselves
before appending, and there the append is the ledger write alone
(`appendEntry`), matching the final quantities those flows log. -/
def record_movement (st : InvState) (pid : Nat) (delta : Int) (etype : Option String)
    (price : Int) (ref : String) : InvState :=
  match getProduct st pid with
  | none => st
  | some p =>
      appendEntry (saveProduct st (product_save { p with quantity := p.quantity + delta }))
        { product_id := pid, quantity := delta, entry_type := etype, unit_price := price,
          total_amount := |delta| * price, reference_id := ref }

/-- The restore logic shared verbatim by the three compensation handlers in
sales/signals.py (lines 83-114, 189-221, 300-332): a single item gets
quantity 1 and status available; a bulk item gets the returned quantity
added and the threshold status. -/
def restore_product (p : Product) (quantity_returned : Int) : Product :=
  match p.item_type with
  | .single => { p with quantity := 1, status := .available }
  | .bulk =>
      let q := p.quantity + quantity_returned
      { p with quantity := q,
               status := if q > 5 then .available else if q > 0 then .lowstock
                         else .outofstock }

/-- One loop iteration of a compensation handler in sales/signals.py: lock
and fetch the product row, restore it, save it, and append the compensating
ledger entry (quantity = quantity returned, total = |quantity × unit price|,
the given reference id; no `entry_type` is passed in the source). -/
def compensate_item (ref : String) (st : InvState) (item : SaleItem) : InvState :=
  match getProduct st item.product_id with
  | none => st
  | some p =>
      appendEntry (saveProduct st (restore_product p item.quantity))
        { product_id := item.product_id, quantity := item.quantity, entry_type := none,
          unit_price := item.unit_price, total_amount := |item.quantity * item.unit_price|,
          reference_id := ref }

/-- sales/signals.py lines 43-134, `restore_product_on_reversal`: the
post-save handler for `Sale`.  `created` and `reversal_processed` are the
guards of the handler (`created`, and the `_reversal_processed` marker);
when the guards pass, every sale item is compensated with a
`REVERSE-<sale-id>` entry. -/
def restore_product_on_reversal (created : Bool) (sale : Sale) (reversal_processed : Bool)
    (st : InvState) : InvState :=
  if created then st
  else if !sale.is_reversed then st
  else if reversal_processed then st
  else sale.items.foldl (compensate_item ("REVERSE-" ++ toString sale.sale_id)) st

/-- sales/signals.py lines 141-241: `prepare_sale_deletion` captures the
items of the sale before deletion and `restore_stock_on_sale_deletion` restores
stock for each captured item with a `DELETE-<sale-id>` entry.  This is the
`Sale` post-delete handler alone; the full deletion operation also runs the
cascaded `SaleItem` handlers — see `delete_sale` and `admin_delete_sale`
below. -/
def restore_stock_on_sale_deletion (sale : Sale) (st : InvState) : InvState :=
  sale.items.foldl (compensate_item ("DELETE-" ++ toString sale.sale_id)) st

/-- sales/signals.py lines 282-352, `restore_stock_on_item_deletion`: the
pre-delete handler for one `SaleItem`, appending one
`ITEM-DELETE-<item-id>` entry. -/
def restore_stock_on_item_deletion (item : SaleItem) (st : InvState) : InvState :=
  compensate_item ("ITEM-DELETE-" ++ toString item.id) st item

/-- sales/signals.py lines 248-274, `update_sale_totals_on_item_deletion`:
recompute the sale totals from the remaining items; when no items remain
the totals are not touched (only a warning is logged). -/
def update_sale_totals_on_item_deletion (sale : Sale) : Sale :=
  if sale.items.isEmpty then sale
  else
    let s := (sale.items.map (fun i => i.total_price)).sum
    { sale with
        total_quantity := (sale.items.map (fun i => i.quantity)).sum,
        subtotal := s,
        total_amount := s + sale.tax_amount }

/-- Deleting one sale item: the pre-delete handler restores stock and
appends the `ITEM-DELETE-` entry, the row is removed from the sale, then
the post-delete handler recomputes the parent totals from the remaining
items. -/
def delete_sale_item (sale : Sale) (item : SaleItem) (st : InvState) : Sale × InvState :=
  let st2 := restore_stock_on_item_deletion item st
  let remaining := sale.items.filter (fun i => decide (i.id ≠ item.id))
  (update_sale_totals_on_item_deletion { sale with items := remaining }, st2)

/-- A bare `sale.delete()` with its items still attached.  Django collects
the cascade and — because `SaleItem` has signal receivers, so no
fast-delete applies — sends `pre_delete` for every cascaded `SaleItem`
(running `restore_stock_on_item_deletion` for each) and for the `Sale`
(`prepare_sale_deletion`, capturing the still-complete item list), then
deletes the rows and sends the `post_delete` signals, running
`restore_stock_on_sale_deletion` over the captured items.  Stock for each
item is therefore compensated twice.  `update_sale_totals_on_item_deletion`
also fires per cascaded item but only rewrites the sale row that is being
deleted, so it does not appear in the store. -/
def delete_sale (sale : Sale) (st : InvState) : InvState :=
  restore_stock_on_sale_deletion sale
    (sale.items.foldl (fun s i => restore_stock_on_item_deletion i s) st)

/-- The superuser admin deletion path (sales/admin.py `delete_model` /
`delete_queryset`): `obj.items.all().delete()` removes each item first —
running `restore_stock_on_item_deletion` per item — and the later
`obj.delete()` captures an already-empty item list, so the sale-level
handler restores nothing further. -/
def admin_delete_sale (sale : Sale) (st : InvState) : InvState :=
  restore_stock_on_sale_deletion { sale with items := [] }
    (sale.items.foldl (fun s i => restore_stock_on_item_deletion i s) st)

/-- inventory/serializers.py lines 259-298, `StockEntrySerializer.validate`:
returns the first validation error message, or `none` when the data is
accepted. -/
def stock_entry_serializer_validate (product : Option Product) (quantity : Int)
    (entry_type : String) : Option String :=
  if quantity = 0 then some "Quantity cannot be zero"
  else
    match product with
    | none => none
    | some p =>
        if p.item_type = .single ∧ (entry_type = "purchase" ∨ entry_type = "return")
            ∧ |quantity| ≠ 1 then
          some "Single items must have quantity = 1 for purchases/returns"
        else if entry_type = "sale" ∧ |quantity| > p.quantity then
          some ("Cannot sell " ++ toString |quantity| ++ " units. Only "
                ++ toString p.quantity ++ " available.")
        else if p.item_type = .single ∧ entry_type = "purchase" ∧ p.quantity > 0 then
          some "Single items cannot be restocked. Create a new product instead."
        else none

/-- inventory/serializers.py lines 330-360, `StockMovementSerializer.validate`. -/
def stock_movement_serializer_validate (p : Product) (quantity : Int)
    (entry_type : String) : Option String :=
  if (entry_type = "purchase" ∨ entry_type = "return") ∧ quantity < 0 then
    some "Quantity must be positive for purchases and returns"
  else if entry_type = "sale" ∧ quantity > 0 then
    some "Quantity must be negative for sales"
  else if entry_type = "sale" ∧ |quantity| > p.quantity then
    some ("Insufficient stock. Available: " ++ toString p.quantity)
  else none

/-- inventory/views.py lines 597-693, `process_restock`: reject single
items, non-positive quantities and negative prices, otherwise create a
purchase stock entry (which updates the product quantity) and update the
product prices.  The second component is the failure message sent to the
caller, `none` on success. -/
def process_restock (pid : Nat) (qty buying_price selling_price : Int) (st : InvState) :
    InvState × Option String :=
  match getProduct st pid with
  | none => (st, some "Product not found")
  | some product =>
      if !product.is_active then (st, some "Product not found")
      else if product.item_type = .single then (st, some "Cannot restock single items")
      else if qty ≤ 0 then (st, some "Quantity must be greater than 0")
      else if buying_price < 0 then (st, some "Buying price cannot be negative")
      else
        let st2 := record_movement st pid qty (some "purchase") buying_price ""
        match getProduct st2 pid with
        | none => (st2, none)
        | some p2 =>
            let p3 := { p2 with
              buying_price := if buying_price ≠ 0 then buying_price else p2.buying_price,
              selling_price := if selling_price > 0 then selling_price else p2.selling_price }
            (saveProduct st2 (product_save p3), none)

/-- inventory/views.py lines 770-851, `ProductUpdateView.post`, quantity
branch: single items only accept quantity 0 or 1; the product is saved with
the new quantity and, when it changed, an adjustment entry for the
difference is appended. -/
def product_update_quantity (pid : Nat) (new_quantity : Int) (st : InvState) : InvState :=
  match getProduct st pid with
  | none => st
  | some p =>
      if p.item_type = .single ∧ ¬(new_quantity = 0 ∨ new_quantity = 1) then st
      else
        let p2 := product_save { p with quantity := new_quantity }
        let st2 := saveProduct st p2
        if p2.quantity ≠ p.quantity then
          appendEntry st2
            { product_id := pid, quantity := p2.quantity - p.quantity,
              entry_type := some "adjustment", unit_price := p.buying_price,
              total_amount := |p2.quantity - p.quantity| * p.buying_price }
        else st2

/-- inventory/views.py lines 887-968, `ProductTransferView.post`: transfer
ownership.  A single item keeps its quantity and gets a zero-quantity
adjustment entry with an explicit zero total; a bulk item loses `qty`
units (with a `-qty` adjustment entry on the source product) and a brand
new product row with quantity `qty` is created for the new owner — with no
stock entry for the new row.  The Bool is the success flag of the JSON
response. -/
def product_transfer (pid new_owner : Nat) (qty : Int) (new_id : Nat) (st : InvState) :
    InvState × Bool :=
  match getProduct st pid with
  | none => (st, false)
  | some product =>
      if qty > product.quantity then (st, false)
      else if product.item_type = .single then
        let st2 := saveProduct st (product_save { product with owner_id := new_owner })
        (appendEntry st2
          { product_id := pid, quantity := 0, entry_type := some "adjustment",
            unit_price := product.buying_price, total_amount := 0 }, true)
      else
        let st2 := saveProduct st (product_save { product with quantity := product.quantity - qty })
        let newp := product_save
          { id := new_id, name := product.name, category_id := product.category_id,
            item_type := product.item_type, sku_value := product.sku_value, quantity := qty,
            status := .available, buying_price := product.buying_price,
            selling_price := product.selling_price, owner_id := new_owner, is_active := true }
        let st3 := { st2 with products := st2.products ++ [newp] }
        (appendEntry st3
          { product_id := pid, quantity := -qty, entry_type := some "adjustment",
            unit_price := product.buying_price,
            total_amount := qty * product.buying_price }, true)

/-- One checkout line item: product, requested quantity, unit price. -/
structure CheckoutLine where
  product_id : Nat
  quantity : Int
  unit_price : Int := 0
deriving DecidableEq, Repr

inductive CheckoutError where
  | product_not_found (pid : Nat)
  | insufficient_stock (requested available : Int)
  | product_not_available (pid : Nat)
deriving DecidableEq, Repr

/-- Modelled from the spec: the checkout view (sales views / the
`BatchSaleCreateView` referenced by sales/forms.py and
`SaleItem.process_sale` in sales/models.py) is not under src/.  Per §4.3
and §5: every line is validated — a bulk product must have
`|requested| ≤ current quantity` (the rule of
`StockEntrySerializer.validate`), a single product must be available —
and a failing line aborts the whole checkout, returning the original
state (all-or-nothing); an accepted line appends a sale ledger entry
with delta = −quantity which debits the product. -/
def checkout_go (st0 : InvState) : List CheckoutLine → InvState → InvState × Option CheckoutError
  | [], st => (st, none)
  | line :: rest, st =>
      match getProduct st line.product_id with
      | none => (st0, some (.product_not_found line.product_id))
      | some p =>
          if p.item_type = .bulk then
            if |line.quantity| ≤ p.quantity then
              checkout_go st0 rest
                (record_movement st line.product_id (-line.quantity) (some "sale")
                  line.unit_price "")
            else (st0, some (.insufficient_stock |line.quantity| p.quantity))
          else
            if p.status = .available then
              checkout_go st0 rest
                (record_movement st line.product_id (-line.quantity) (some "sale")
                  line.unit_price "")
            else (st0, some (.product_not_available line.product_id))

/-- Modelled from the spec: checkout entry point (see `checkout_go`). -/
def checkout (lines : List CheckoutLine) (st : InvState) : InvState × Option CheckoutError :=
  checkout_go st lines st

/-- Case-insensitive string comparison key, modelling the `__iexact`
lookups (character-wise lowering over the characters). -/
def str_lower (s : String) : String :=
  ⟨s.data.map Char.toLower⟩

/-- inventory/views.py lines 403-408: the existing-product lookup of the
bulk branch of `ProductCreateView.form_valid`
(`name__iexact`, same category, `is_active=True`, `.first()`). -/
def find_existing_bulk (st : InvState) (name : String) (category_id : Nat) : Option Product :=
  st.products.find? (fun p =>
    decide (str_lower p.name = str_lower name) && decide (p.category_id = category_id)
      && p.is_active)

/-- inventory/views.py lines 400-430, bulk branch of
`ProductCreateView.form_valid`: reuse a matching active product in the same
category, otherwise create a new one with quantity 0; either way append a
purchase stock entry for the requested quantity (which adds it to the
product).  Returns the id of the saved product (`self.object`). -/
def product_create_bulk (name : String) (category_id : Nat) (qty buying_price selling_price : Int)
    (new_id owner_id : Nat) (st : InvState) : InvState × Nat :=
  match find_existing_bulk st name category_id with
  | some existing =>
      (record_movement st existing.id qty (some "purchase") buying_price "", existing.id)
  | none =>
      let p := product_save
        { id := new_id, name := name, category_id := category_id, item_type := .bulk,
          quantity := 0, status := .available, buying_price := buying_price,
          selling_price := selling_price, owner_id := owner_id }
      let st2 := { st with products := st.products ++ [p] }
      (record_movement st2 new_id qty (some "purchase") buying_price "", new_id)

/-- inventory/views.py lines 376-398, single branch of
`ProductCreateView.form_valid`: require a fresh SKU, create the product
with quantity 1 and append its initial purchase entry. -/
def product_create_single (name : String) (category_id : Nat) (sku : String)
    (buying_price selling_price : Int) (new_id owner_id : Nat) (st : InvState) :
    InvState × Option String :=
  if sku = "" then (st, some "SKU is required for single items")
  else if st.products.any (fun p => decide (str_lower p.sku_value = str_lower sku) && p.is_active) then
    (st, some "SKU already exists")
  else
    let p := product_save
      { id := new_id, name := name, category_id := category_id, item_type := .single,
        sku_value := sku, quantity := 1, status := .available, buying_price := buying_price,
        selling_price := selling_price, owner_id := owner_id }
    let st2 := { st with products := st.products ++ [p] }
    (appendEntry st2
      { product_id := new_id, quantity := 1, entry_type := some "purchase",
        unit_price := buying_price, total_amount := buying_price }, none)

/-- One compensation loop iteration that may raise: `fail_at = some i`
makes the i-th `StockEntry.objects.create` (or the product save) raise a
database error, as any of these calls can inside the handler body. -/
def compensate_item_fallible (ref : String) (fail_at : Option Nat)
    (acc : Nat × InvState) (item : SaleItem) : Except String (Nat × InvState) :=
  if fail_at = some acc.1 then Except.error "stock entry creation failed"
  else Except.ok (acc.1 + 1, compensate_item ref acc.2 item)

/-- sales/signals.py lines 43-134 with the failure path made explicit: the
loop body runs inside `transaction.atomic()`, so an error rolls the store
back to the pre-handler state, and the surrounding
`except Exception: logger.exception(...)` catches the error — the second
component is what escapes to the caller of `sale.save()`, which is always
`none`. -/
def restore_product_on_reversal_fallible (created : Bool) (sale : Sale)
    (reversal_processed : Bool) (fail_at : Option Nat) (st : InvState) :
    InvState × Option String :=
  if created then (st, none)
  else if !sale.is_reversed then (st, none)
  else if reversal_processed then (st, none)
  else
    match sale.items.foldlM
        (compensate_item_fallible ("REVERSE-" ++ toString sale.sale_id) fail_at) (0, st) with
    | .ok (_, st2) => (st2, none)
    | .error _ => (st, none)

/-- sales/signals.py lines 163-241 with the failure path made explicit
(same `transaction.atomic()` + `except Exception: logger.exception`
structure as the reversal handler). -/
def restore_stock_on_sale_deletion_fallible (sale : Sale) (fail_at : Option Nat)
    (st : InvState) : InvState × Option String :=
  match sale.items.foldlM
      (compensate_item_fallible ("DELETE-" ++ toString sale.sale_id) fail_at) (0, st) with
  | .ok (_, st2) => (st2, none)
  | .error _ => (st, none)

/-- The stock-mutating operations named by the ledger-sum claim. -/
inductive Op where
  | reversal (sale : Sale)
  | sale_deletion (sale : Sale)
  | item_deletion (sale : Sale) (item : SaleItem)
  | restock (pid : Nat) (qty buying_price selling_price : Int)
  | adjust (pid : Nat) (new_quantity : Int)
  | transfer (pid new_owner : Nat) (qty : Int) (new_id : Nat)
  | checkout_op (lines : List CheckoutLine)
  | create_bulk (name : String) (category_id : Nat) (qty buying_price selling_price : Int)
      (new_id owner_id : Nat)
  | create_single (name : String) (category_id : Nat) (sku : String)
      (buying_price selling_price : Int) (new_id owner_id : Nat)
deriving Repr

/-- The resulting store of each operation. -/
def applyOp : Op → InvState → InvState
  | .reversal sale, st => restore_product_on_reversal false sale false st
  | .sale_deletion sale, st => restore_stock_on_sale_deletion sale st
  | .item_deletion sale item, st => (delete_sale_item sale item st).2
  | .restock pid qty bp sp, st => (process_restock pid qty bp sp st).1
  | .adjust pid q, st => product_update_quantity pid q st
  | .transfer pid owner qty nid, st => (product_transfer pid owner qty nid st).1
  | .checkout_op lines, st => (checkout lines st).1
  | .create_bulk name cid qty bp sp nid oid, st =>
      (product_create_bulk name cid qty bp sp nid oid st).1
  | .create_single name cid sku bp sp nid oid, st =>
      (product_create_single name cid sku bp sp nid oid st).1

/-- Ledger-sum invariant at a product id: every product row carrying this id
has its stored quantity equal to the sum of the ledger deltas for the id. -/
def ledger_inv (st : InvState) (pid : Nat) : Prop :=
  ∀ p ∈ st.products, p.id = pid → p.quantity = ledgerSum st pid

/-- All rows with this id are bulk-kind. -/
def bulk_at (st : InvState) (pid : Nat) : Prop :=
  ∀ p ∈ st.products, p.id = pid → p.item_type = .bulk

/-- Bulk threshold invariant at a product id. -/
def status_inv (st : InvState) (pid : Nat) : Prop :=
  ∀ p ∈ st.products, p.id = pid → p.item_type = .bulk → p.status = bulk_status p.quantity

/-- An operation is safe for a product id when the id is not the one handed
to a row-creating operation as its fresh row id. -/
def op_safe : Op → Nat → Prop
  | .transfer _ _ _ new_id, pid => pid ≠ new_id
  | .create_bulk _ _ _ _ _ new_id _, pid => pid ≠ new_id
  | .create_single _ _ _ _ _ new_id _, pid => pid ≠ new_id
  | _, _ => True

/-- A product row whose status agrees with the bulk thresholds whenever the
row is bulk-kind. -/
def status_ok (p : Product) : Prop :=
  p.item_type = .bulk → p.status = bulk_status p.quantity

/-! ### Basic lemmas about the store -/

theorem getProduct_mem {st : InvState} {pid : Nat} {p : Product}
    (h : getProduct st pid = some p) : p ∈ st.products :=
  List.mem_of_find?_eq_some h

theorem getProduct_id {st : InvState} {pid : Nat} {p : Product}
    (h : getProduct st pid = some p) : p.id = pid := by
  have := List.find?_some h
  simpa using this

theorem ledgerSum_congr {st st2 : InvState} (pid : Nat) (h : st2.entries = st.entries) :
    ledgerSum st2 pid = ledgerSum st pid := by
  unfold ledgerSum
  rw [h]

theorem ledgerSum_append {st st2 : InvState} {e : StockEntry} (pid : Nat)
    (h : st2.entries = st.entries ++ [e]) :
    ledgerSum st2 pid = ledgerSum st pid + (if e.product_id = pid then e.quantity else 0) := by
  unfold ledgerSum
  rw [h, List.filter_append]
  by_cases hc : e.product_id = pid <;> simp [hc]

theorem restore_product_id (p : Product) (d : Int) : (restore_product p d).id = p.id := by
  unfold restore_product
  cases p.item_type <;> rfl

theorem restore_product_item_type (p : Product) (d : Int) :
    (restore_product p d).item_type = p.item_type := by
  unfold restore_product
  cases h : p.item_type <;> simp [h]

theorem restore_product_bulk_quantity (p : Product) (d : Int) (h : p.item_type = .bulk) :
    (restore_product p d).quantity = p.quantity + d := by
  unfold restore_product
  rw [h]

theorem product_save_id (p : Product) : (product_save p).id = p.id := by
  unfold product_save
  cases p.item_type <;> rfl

theorem product_save_item_type (p : Product) :
    (product_save p).item_type = p.item_type := by
  unfold product_save
  cases h : p.item_type <;> simp [h]

theorem product_save_bulk_quantity (p : Product) (h : p.item_type = .bulk) :
    (product_save p).quantity = p.quantity := by
  unfold product_save
  rw [h]

theorem product_save_status_ok (p : Product) : status_ok (product_save p) := by
  intro hb
  unfold product_save at hb ⊢
  cases h : p.item_type
  · rw [h] at hb
    exact absurd hb (by simp)
  · rfl

theorem restore_product_status_ok (p : Product) (d : Int) :
    status_ok (restore_product p d) := by
  intro hb
  unfold restore_product at hb ⊢
  cases h : p.item_type
  · rw [h] at hb
    exact absurd hb (by simp)
  · rfl

/-! ### Invariant preservation building blocks

The mutating operations only ever change the store in three shapes: replace
the row with a given id (`saveProduct`), append fresh rows at the end, and
append one ledger entry.  The lemmas below cover each shape for each of the
three invariants. -/

theorem ledger_inv_save_append {st : InvState} {pid : Nat} (p2 : Product) (e : StockEntry)
    (h : ledger_inv st pid)
    (hmain : (p2.id = pid ∧ e.product_id = pid
                ∧ ∀ q ∈ st.products, q.id = pid → p2.quantity = q.quantity + e.quantity)
             ∨ (¬ p2.id = pid ∧ ¬ e.product_id = pid)) :
    ledger_inv (appendEntry (saveProduct st p2) e) pid := by
  intro q hq hqid
  have hsum : ledgerSum (appendEntry (saveProduct st p2) e) pid
      = ledgerSum st pid + (if e.product_id = pid then e.quantity else 0) :=
    ledgerSum_append pid rfl
  simp only [appendEntry, saveProduct, List.mem_map] at hq
  obtain ⟨q0, hq0, hq0eq⟩ := hq
  rcases hmain with ⟨hp2, he, hall⟩ | ⟨hp2, he⟩
  · rw [hsum, if_pos he]
    by_cases hc : q0.id = p2.id
    · rw [if_pos hc] at hq0eq
      subst hq0eq
      have := hall q0 hq0 (hc.trans hp2)
      rw [this, h q0 hq0 (hc.trans hp2)]
    · rw [if_neg hc] at hq0eq
      subst hq0eq
      exact absurd (hqid.trans hp2.symm) hc
  · rw [hsum, if_neg he, add_zero]
    by_cases hc : q0.id = p2.id
    · rw [if_pos hc] at hq0eq
      subst hq0eq
      exact absurd hqid hp2
    · rw [if_neg hc] at hq0eq
      subst hq0eq
      exact h q0 hq0 hqid

theorem ledger_inv_save_only {st : InvState} {pid : Nat} (p2 : Product)
    (h : ledger_inv st pid)
    (hq : p2.id = pid → ∀ q ∈ st.products, q.id = pid → p2.quantity = q.quantity) :
    ledger_inv (saveProduct st p2) pid := by
  intro q hmem hqid
  have hsum : ledgerSum (saveProduct st p2) pid = ledgerSum st pid := ledgerSum_congr pid rfl
  simp only [saveProduct, List.mem_map] at hmem
  obtain ⟨q0, hq0, hq0eq⟩ := hmem
  by_cases hc : q0.id = p2.id
  · rw [if_pos hc] at hq0eq
    subst hq0eq
    rw [hsum, hq hqid q0 hq0 (hc.trans hqid)]
    exact h q0 hq0 (hc.trans hqid)
  · rw [if_neg hc] at hq0eq
    subst hq0eq
    rw [hsum]
    exact h q0 hq0 hqid

theorem ledger_inv_extend {st st2 : InvState} {pid : Nat} (extra : List Product)
    (h : ledger_inv st pid)
    (hprod : st2.products = st.products ++ extra)
    (hent : st2.entries = st.entries)
    (hex : ∀ r ∈ extra, ¬ r.id = pid) :
    ledger_inv st2 pid := by
  intro q hmem hqid
  have hsum : ledgerSum st2 pid = ledgerSum st pid := ledgerSum_congr pid hent
  rw [hprod, List.mem_append] at hmem
  rcases hmem with hmem | hmem
  · rw [hsum]
    exact h q hmem hqid
  · exact absurd hqid (hex q hmem)

theorem ledger_inv_append_other {st : InvState} {pid : Nat} (e : StockEntry)
    (h : ledger_inv st pid) (he : ¬ e.product_id = pid) :
    ledger_inv (appendEntry st e) pid := by
  intro q hmem hqid
  have hsum : ledgerSum (appendEntry st e) pid
      = ledgerSum st pid + (if e.product_id = pid then e.quantity else 0) :=
    ledgerSum_append pid rfl
  rw [hsum, if_neg he, add_zero]
  exact h q hmem hqid

theorem bulk_at_save {st : InvState} {pid : Nat} (p2 : Product)
    (h : bulk_at st pid) (h2 : p2.id = pid → p2.item_type = .bulk) :
    bulk_at (saveProduct st p2) pid := by
  intro q hmem hqid
  simp only [saveProduct, List.mem_map] at hmem
  obtain ⟨q0, hq0, hq0eq⟩ := hmem
  by_cases hc : q0.id = p2.id
  · rw [if_pos hc] at hq0eq
    subst hq0eq
    exact h2 hqid
  · rw [if_neg hc] at hq0eq
    subst hq0eq
    exact h q0 hq0 hqid

theorem bulk_at_append_entry {st : InvState} {pid : Nat} (e : StockEntry)
    (h : bulk_at st pid) : bulk_at (appendEntry st e) pid := h

theorem bulk_at_extend {st st2 : InvState} {pid : Nat} (extra : List Product)
    (h : bulk_at st pid)
    (hprod : st2.products = st.products ++ extra)
    (hex : ∀ r ∈ extra, r.id = pid → r.item_type = .bulk) :
    bulk_at st2 pid := by
  intro q hmem hqid
  rw [hprod, List.mem_append] at hmem
  rcases hmem with hmem | hmem
  · exact h q hmem hqid
  · exact hex q hmem hqid

theorem status_inv_save {st : InvState} {pid : Nat} (p2 : Product)
    (h : status_inv st pid) (h2 : status_ok p2) :
    status_inv (saveProduct st p2) pid := by
  intro q hmem hqid hb
  simp only [saveProduct, List.mem_map] at hmem
  obtain ⟨q0, hq0, hq0eq⟩ := hmem
  by_cases hc : q0.id = p2.id
  · rw [if_pos hc] at hq0eq
    subst hq0eq
    exact h2 hb
  · rw [if_neg hc] at hq0eq
    subst hq0eq
    exact h q0 hq0 hqid hb

theorem status_inv_append_entry {st : InvState} {pid : Nat} (e : StockEntry)
    (h : status_inv st pid) : status_inv (appendEntry st e) pid := h

theorem status_inv_extend {st st2 : InvState} {pid : Nat} (extra : List Product)
    (h : status_inv st pid)
    (hprod : st2.products = st.products ++ extra)
    (hex : ∀ r ∈ extra, status_ok r) :
    status_inv st2 pid := by
  intro q hmem hqid hb
  rw [hprod, List.mem_append] at hmem
  rcases hmem with hmem | hmem
  · exact h q hmem hqid hb
  · exact hex q hmem hb

/-- Generic preservation of a predicate through `List.foldl`. -/
theorem foldl_preserves {α : Type} {f : InvState → α → InvState}
    {P : InvState → Prop} (hf : ∀ st x, P st → P (f st x)) :
    ∀ (l : List α) (st : InvState), P st → P (l.foldl f st)
  | [], st, h => h
  | x :: xs, st, h => foldl_preserves hf xs (f st x) (hf st x h)

/-! ### Per-operation preservation of the ledger-sum and bulk-kind facts -/

theorem compensate_item_inv (ref : String) (item : SaleItem) (st : InvState) (pid : Nat)
    (hb : bulk_at st pid) (h : ledger_inv st pid) :
    ledger_inv (compensate_item ref st item) pid ∧ bulk_at (compensate_item ref st item) pid := by
  unfold compensate_item
  cases hg : getProduct st item.product_id with
  | none => exact ⟨h, hb⟩
  | some p =>
      have hpid := getProduct_id hg
      have hmem := getProduct_mem hg
      have hid2 : (restore_product p item.quantity).id = item.product_id :=
        (restore_product_id p item.quantity).trans hpid
      constructor
      · apply ledger_inv_save_append _ _ h
        by_cases hc : item.product_id = pid
        · left
          refine ⟨hid2.trans hc, hc, ?_⟩
          intro q hq hqid
          have hpb : p.item_type = .bulk := hb p hmem (hpid.trans hc)
          rw [restore_product_bulk_quantity p item.quantity hpb,
              h p hmem (hpid.trans hc), h q hq hqid]
        · right
          exact ⟨fun hcon => hc (hid2 ▸ hcon), hc⟩
      · apply bulk_at_append_entry
        apply bulk_at_save _ hb
        intro hcon
        have : p.item_type = .bulk := hb p hmem (hpid.trans (hid2.symm.trans hcon))
        rw [restore_product_item_type]
        exact this

theorem ledger_inv_save_extend_append {st : InvState} {pid : Nat} (p2 : Product)
    (extra : List Product) (e : StockEntry)
    (h : ledger_inv st pid)
    (hex : ∀ r ∈ extra, ¬ r.id = pid)
    (hmain : (p2.id = pid ∧ e.product_id = pid
                ∧ ∀ q ∈ st.products, q.id = pid → p2.quantity = q.quantity + e.quantity)
             ∨ (¬ p2.id = pid ∧ ¬ e.product_id = pid)) :
    ledger_inv
      (appendEntry { saveProduct st p2 with
          products := (saveProduct st p2).products ++ extra } e) pid := by
  intro q hq hqid
  have hsum : ledgerSum
      (appendEntry { saveProduct st p2 with
          products := (saveProduct st p2).products ++ extra } e) pid
      = ledgerSum st pid + (if e.product_id = pid then e.quantity else 0) :=
    ledgerSum_append pid rfl
  simp only [appendEntry, saveProduct, List.mem_append, List.mem_map] at hq
  rcases hq with ⟨q0, hq0, hq0eq⟩ | hq
  · rcases hmain with ⟨hp2, he, hall⟩ | ⟨hp2, he⟩
    · rw [hsum, if_pos he]
      by_cases hc : q0.id = p2.id
      · rw [if_pos hc] at hq0eq
        subst hq0eq
        rw [hall q0 hq0 (hc.trans hp2), h q0 hq0 (hc.trans hp2)]
      · rw [if_neg hc] at hq0eq
        subst hq0eq
        exact absurd (hqid.trans hp2.symm) hc
    · rw [hsum, if_neg he, add_zero]
      by_cases hc : q0.id = p2.id
      · rw [if_pos hc] at hq0eq
        subst hq0eq
        exact absurd hqid hp2
      · rw [if_neg hc] at hq0eq
        subst hq0eq
        exact h q0 hq0 hqid
  · exact absurd hqid (hex q hq)

theorem record_movement_inv (tid : Nat) (delta : Int) (etype : Option String)
    (price : Int) (ref : String) (st : InvState) (pid : Nat)
    (hb : bulk_at st pid) (h : ledger_inv st pid) :
    ledger_inv (record_movement st tid delta etype price ref) pid
      ∧ bulk_at (record_movement st tid delta etype price ref) pid := by
  unfold record_movement
  cases hg : getProduct st tid with
  | none => exact ⟨h, hb⟩
  | some p =>
      have hpid := getProduct_id hg
      have hmem := getProduct_mem hg
      have hid2 : (product_save { p with quantity := p.quantity + delta }).id = tid := by
        rw [product_save_id]
        exact hpid
      constructor
      · apply ledger_inv_save_append _ _ h
        by_cases hc : tid = pid
        · left
          refine ⟨hid2.trans hc, hc, ?_⟩
          intro q hq hqid
          have hpb : p.item_type = .bulk := hb p hmem (hpid.trans hc)
          have : (product_save { p with quantity := p.quantity + delta }).quantity
              = p.quantity + delta :=
            product_save_bulk_quantity _ hpb
          rw [this, h p hmem (hpid.trans hc), h q hq hqid]
        · right
          exact ⟨fun hcon => hc (hid2 ▸ hcon), hc⟩
      · apply bulk_at_append_entry
        apply bulk_at_save _ hb
        intro hcon
        rw [product_save_item_type]
        exact hb p hmem (hpid.trans (hid2.symm.trans hcon))

theorem reversal_flow_inv (sale : Sale) (created marker : Bool) (st : InvState) (pid : Nat)
    (hb : bulk_at st pid) (h : ledger_inv st pid) :
    ledger_inv (restore_product_on_reversal created sale marker st) pid
      ∧ bulk_at (restore_product_on_reversal created sale marker st) pid := by
  unfold restore_product_on_reversal
  split
  · exact ⟨h, hb⟩
  split
  · exact ⟨h, hb⟩
  split
  · exact ⟨h, hb⟩
  exact foldl_preserves
    (P := fun s => ledger_inv s pid ∧ bulk_at s pid)
    (fun s x hp => by
      have := compensate_item_inv ("REVERSE-" ++ toString sale.sale_id) x s pid hp.2 hp.1
      exact ⟨this.1, this.2⟩)
    sale.items st ⟨h, hb⟩

theorem deletion_flow_inv (sale : Sale) (st : InvState) (pid : Nat)
    (hb : bulk_at st pid) (h : ledger_inv st pid) :
    ledger_inv (restore_stock_on_sale_deletion sale st) pid
      ∧ bulk_at (restore_stock_on_sale_deletion sale st) pid := by
  unfold restore_stock_on_sale_deletion
  exact foldl_preserves
    (P := fun s => ledger_inv s pid ∧ bulk_at s pid)
    (fun s x hp => by
      have := compensate_item_inv ("DELETE-" ++ toString sale.sale_id) x s pid hp.2 hp.1
      exact ⟨this.1, this.2⟩)
    sale.items st ⟨h, hb⟩

theorem item_deletion_flow_inv (item : SaleItem) (st : InvState) (pid : Nat)
    (hb : bulk_at st pid) (h : ledger_inv st pid) :
    ledger_inv (restore_stock_on_item_deletion item st) pid
      ∧ bulk_at (restore_stock_on_item_deletion item st) pid := by
  unfold restore_stock_on_item_deletion
  exact compensate_item_inv _ item st pid hb h


theorem process_restock_inv (pid2 : Nat) (qty bp sp : Int) (st : InvState) (pid : Nat)
    (hb : bulk_at st pid) (h : ledger_inv st pid) :
    ledger_inv (process_restock pid2 qty bp sp st).1 pid
      ∧ bulk_at (process_restock pid2 qty bp sp st).1 pid := by
  unfold process_restock
  cases hg : getProduct st pid2 with
  | none => exact ⟨h, hb⟩
  | some product =>
      dsimp only
      by_cases h1 : (!product.is_active) = true
      · rw [if_pos h1]
        exact ⟨h, hb⟩
      rw [if_neg h1]
      by_cases h2 : product.item_type = ItemType.single
      · rw [if_pos h2]
        exact ⟨h, hb⟩
      rw [if_neg h2]
      by_cases h3 : qty ≤ 0
      · rw [if_pos h3]
        exact ⟨h, hb⟩
      rw [if_neg h3]
      by_cases h4 : bp < 0
      · rw [if_pos h4]
        exact ⟨h, hb⟩
      rw [if_neg h4]
      have hrm := record_movement_inv pid2 qty (some "purchase") bp "" st pid hb h
      cases hg2 : getProduct (record_movement st pid2 qty (some "purchase") bp "") pid2 with
      | none => exact hrm
      | some p2 =>
          have hpid2 := getProduct_id hg2
          have hmem2 := getProduct_mem hg2
          dsimp only
          constructor
          · apply ledger_inv_save_only _ hrm.1
            intro hidc q hq hqid
            rw [product_save_id] at hidc
            have hpb : p2.item_type = .bulk := hrm.2 p2 hmem2 hidc
            have hq3 : (product_save { p2 with
                buying_price := if bp ≠ 0 then bp else p2.buying_price,
                selling_price := if sp > 0 then sp else p2.selling_price }).quantity
                = p2.quantity :=
              product_save_bulk_quantity _ hpb
            rw [hq3, hrm.1 p2 hmem2 hidc, hrm.1 q hq hqid]
          · apply bulk_at_save _ hrm.2
            intro hidc
            rw [product_save_id] at hidc
            rw [product_save_item_type]
            exact hrm.2 p2 hmem2 hidc

theorem product_update_quantity_inv (pid2 : Nat) (nq : Int) (st : InvState) (pid : Nat)
    (hb : bulk_at st pid) (h : ledger_inv st pid) :
    ledger_inv (product_update_quantity pid2 nq st) pid
      ∧ bulk_at (product_update_quantity pid2 nq st) pid := by
  unfold product_update_quantity
  cases hg : getProduct st pid2 with
  | none => exact ⟨h, hb⟩
  | some p =>
      have hpid := getProduct_id hg
      have hmem := getProduct_mem hg
      dsimp only
      by_cases hguard : p.item_type = ItemType.single ∧ ¬(nq = 0 ∨ nq = 1)
      · rw [if_pos hguard]
        exact ⟨h, hb⟩
      rw [if_neg hguard]
      have hid2 : (product_save { p with quantity := nq }).id = pid2 := by
        rw [product_save_id]
        exact hpid
      by_cases hch : (product_save { p with quantity := nq }).quantity ≠ p.quantity
      · rw [if_pos hch]
        constructor
        · apply ledger_inv_save_append _ _ h
          by_cases hc : pid2 = pid
          · left
            refine ⟨hid2.trans hc, hc, ?_⟩
            intro q hq hqid
            have hqq : q.quantity = p.quantity := by
              rw [h q hq hqid, h p hmem (hpid.trans hc)]
            rw [hqq]
            ring
          · right
            exact ⟨fun hcon => hc (hid2.symm.trans hcon), hc⟩
        · apply bulk_at_append_entry
          apply bulk_at_save _ hb
          intro hcon
          rw [product_save_item_type]
          exact hb p hmem (hpid.trans (hid2.symm.trans hcon))
      · rw [if_neg hch]
        constructor
        · apply ledger_inv_save_only _ h
          intro hidc q hq hqid
          have heq : (product_save { p with quantity := nq }).quantity = p.quantity :=
            not_not.mp hch
          rw [heq, h p hmem (hpid.trans (hid2.symm.trans hidc)), h q hq hqid]
        · apply bulk_at_save _ hb
          intro hcon
          rw [product_save_item_type]
          exact hb p hmem (hpid.trans (hid2.symm.trans hcon))


theorem product_transfer_inv (pid2 new_owner : Nat) (qty : Int) (new_id : Nat)
    (st : InvState) (pid : Nat) (hsafe : pid ≠ new_id)
    (hb : bulk_at st pid) (h : ledger_inv st pid) :
    ledger_inv (product_transfer pid2 new_owner qty new_id st).1 pid
      ∧ bulk_at (product_transfer pid2 new_owner qty new_id st).1 pid := by
  unfold product_transfer
  cases hg : getProduct st pid2 with
  | none => exact ⟨h, hb⟩
  | some product =>
      have hpid := getProduct_id hg
      have hmem := getProduct_mem hg
      dsimp only
      by_cases h1 : qty > product.quantity
      · rw [if_pos h1]
        exact ⟨h, hb⟩
      rw [if_neg h1]
      by_cases h2 : product.item_type = ItemType.single
      · rw [if_pos h2]
        have hnot : ¬ pid2 = pid := by
          intro hc
          have := hb product hmem (hpid.trans hc)
          rw [h2] at this
          exact absurd this (by simp)
        have hid2 : (product_save { product with owner_id := new_owner }).id = pid2 := by
          rw [product_save_id]
          exact hpid
        constructor
        · apply ledger_inv_save_append _ _ h
          right
          exact ⟨fun hcon => hnot (hid2.symm.trans hcon), hnot⟩
        · apply bulk_at_append_entry
          apply bulk_at_save _ hb
          intro hcon
          exact absurd (hid2.symm.trans hcon) hnot
      rw [if_neg h2]
      dsimp only
      set p2 := product_save { product with quantity := product.quantity - qty } with hp2def
      set pnew := product_save
          { id := new_id, name := product.name, category_id := product.category_id,
            item_type := product.item_type, sku_value := product.sku_value, quantity := qty,
            status := .available, buying_price := product.buying_price,
            selling_price := product.selling_price, owner_id := new_owner,
            is_active := true } with hpnewdef
      have hid2 : p2.id = pid2 := by
        rw [hp2def, product_save_id]
        exact hpid
      have hnew_id : pnew.id = new_id := by
        rw [hpnewdef, product_save_id]
      have hexid : ∀ r ∈ [pnew], ¬ r.id = pid := by
        intro r hr
        rw [List.mem_singleton] at hr
        subst hr
        rw [hnew_id]
        exact fun hc => hsafe hc.symm
      constructor
      · refine ledger_inv_save_extend_append p2 [pnew] _ h hexid ?_
        by_cases hc : pid2 = pid
        · left
          refine ⟨hid2.trans hc, hc, ?_⟩
          intro q hq hqid
          have hpb : product.item_type = .bulk := hb product hmem (hpid.trans hc)
          have hq2 : p2.quantity = product.quantity - qty := by
            rw [hp2def]
            exact product_save_bulk_quantity _ hpb
          have hqq : q.quantity = product.quantity := by
            rw [h q hq hqid, h product hmem (hpid.trans hc)]
          rw [hq2, hqq]
          ring
        · right
          exact ⟨fun hcon => hc (hid2.symm.trans hcon), hc⟩
      · apply bulk_at_append_entry
        have hsave : bulk_at (saveProduct st p2) pid := by
          apply bulk_at_save _ hb
          intro hcon
          rw [hp2def, product_save_item_type]
          exact hb product hmem (hpid.trans (hid2.symm.trans hcon))
        refine bulk_at_extend [pnew] hsave rfl ?_
        intro r hr hrid
        exact absurd hrid (hexid r hr)

theorem checkout_go_inv (pid : Nat) :
    ∀ (lines : List CheckoutLine) (st0 st : InvState),
      bulk_at st0 pid → ledger_inv st0 pid → bulk_at st pid → ledger_inv st pid →
      ledger_inv (checkout_go st0 lines st).1 pid ∧ bulk_at (checkout_go st0 lines st).1 pid
  | [], st0, st, hb0, h0, hbs, hs => ⟨hs, hbs⟩
  | line :: rest, st0, st, hb0, h0, hbs, hs => by
      unfold checkout_go
      cases hg : getProduct st line.product_id with
      | none => exact ⟨h0, hb0⟩
      | some p =>
          dsimp only
          by_cases h1 : p.item_type = ItemType.bulk
          · rw [if_pos h1]
            by_cases h2 : |line.quantity| ≤ p.quantity
            · rw [if_pos h2]
              have hrm := record_movement_inv line.product_id (-line.quantity) (some "sale")
                line.unit_price "" st pid hbs hs
              exact checkout_go_inv pid rest st0 _ hb0 h0 hrm.2 hrm.1
            · rw [if_neg h2]
              exact ⟨h0, hb0⟩
          · rw [if_neg h1]
            by_cases h2 : p.status = ProductStatus.available
            · rw [if_pos h2]
              have hrm := record_movement_inv line.product_id (-line.quantity) (some "sale")
                line.unit_price "" st pid hbs hs
              exact checkout_go_inv pid rest st0 _ hb0 h0 hrm.2 hrm.1
            · rw [if_neg h2]
              exact ⟨h0, hb0⟩

theorem product_create_bulk_inv (name : String) (cid : Nat) (qty bp sp : Int)
    (new_id oid : Nat) (st : InvState) (pid : Nat) (hsafe : pid ≠ new_id)
    (hb : bulk_at st pid) (h : ledger_inv st pid) :
    ledger_inv (product_create_bulk name cid qty bp sp new_id oid st).1 pid
      ∧ bulk_at (product_create_bulk name cid qty bp sp new_id oid st).1 pid := by
  unfold product_create_bulk
  cases hf : find_existing_bulk st name cid with
  | some existing => exact record_movement_inv existing.id qty (some "purchase") bp "" st pid hb h
  | none =>
      dsimp only
      set pnew := product_save
          { id := new_id, name := name, category_id := cid, item_type := ItemType.bulk,
            sku_value := "", quantity := 0, status := .available, buying_price := bp,
            selling_price := sp, owner_id := oid, is_active := true } with hpnewdef
      have hpnew : pnew.id = new_id := by
        rw [hpnewdef, product_save_id]
      have hexid : ∀ r ∈ [pnew], ¬ r.id = pid := by
        intro r hr
        rw [List.mem_singleton] at hr
        subst hr
        rw [hpnew]
        exact fun hc => hsafe hc.symm
      have hext1 : ledger_inv { st with products := st.products ++ [pnew] } pid :=
        ledger_inv_extend [pnew] h rfl rfl hexid
      have hext2 : bulk_at { st with products := st.products ++ [pnew] } pid := by
        refine bulk_at_extend [pnew] hb rfl ?_
        intro r hr hrid
        exact absurd hrid (hexid r hr)
      exact record_movement_inv new_id qty (some "purchase") bp "" _ pid hext2 hext1

theorem product_create_single_inv (name : String) (cid : Nat) (sku : String)
    (bp sp : Int) (new_id oid : Nat) (st : InvState) (pid : Nat) (hsafe : pid ≠ new_id)
    (hb : bulk_at st pid) (h : ledger_inv st pid) :
    ledger_inv (product_create_single name cid sku bp sp new_id oid st).1 pid
      ∧ bulk_at (product_create_single name cid sku bp sp new_id oid st).1 pid := by
  unfold product_create_single
  by_cases h1 : sku = ""
  · rw [if_pos h1]
    exact ⟨h, hb⟩
  rw [if_neg h1]
  by_cases h2 : (st.products.any
      (fun p => decide (str_lower p.sku_value = str_lower sku) && p.is_active)) = true
  · rw [if_pos h2]
    exact ⟨h, hb⟩
  rw [if_neg h2]
  dsimp only
  set pnew := product_save
      { id := new_id, name := name, category_id := cid, item_type := ItemType.single,
        sku_value := sku, quantity := 1, status := .available, buying_price := bp,
        selling_price := sp, owner_id := oid, is_active := true } with hpnewdef
  have hpnew : pnew.id = new_id := by
    rw [hpnewdef, product_save_id]
  have hexid : ∀ r ∈ [pnew], ¬ r.id = pid := by
    intro r hr
    rw [List.mem_singleton] at hr
    subst hr
    rw [hpnew]
    exact fun hc => hsafe hc.symm
  have hext1 : ledger_inv { st with products := st.products ++ [pnew] } pid :=
    ledger_inv_extend [pnew] h rfl rfl hexid
  have hext2 : bulk_at { st with products := st.products ++ [pnew] } pid := by
    refine bulk_at_extend [pnew] hb rfl ?_
    intro r hr hrid
    exact absurd hrid (hexid r hr)
  constructor
  · apply ledger_inv_append_other _ hext1
    exact fun hc => hsafe hc.symm
  · exact hext2

/-! ### Per-operation preservation of the bulk threshold invariant -/

theorem compensate_item_status (ref : String) (item : SaleItem) (st : InvState) (pid : Nat)
    (h : status_inv st pid) : status_inv (compensate_item ref st item) pid := by
  unfold compensate_item
  cases hg : getProduct st item.product_id with
  | none => exact h
  | some p =>
      apply status_inv_append_entry
      exact status_inv_save _ h (restore_product_status_ok p item.quantity)

theorem record_movement_status (tid : Nat) (delta : Int) (etype : Option String)
    (price : Int) (ref : String) (st : InvState) (pid : Nat)
    (h : status_inv st pid) :
    status_inv (record_movement st tid delta etype price ref) pid := by
  unfold record_movement
  cases hg : getProduct st tid with
  | none => exact h
  | some p =>
      apply status_inv_append_entry
      exact status_inv_save _ h (product_save_status_ok _)

theorem reversal_flow_status (sale : Sale) (created marker : Bool) (st : InvState) (pid : Nat)
    (h : status_inv st pid) :
    status_inv (restore_product_on_reversal created sale marker st) pid := by
  unfold restore_product_on_reversal
  split
  · exact h
  split
  · exact h
  split
  · exact h
  exact foldl_preserves
    (P := fun s => status_inv s pid)
    (fun s x hp => compensate_item_status _ x s pid hp)
    sale.items st h

theorem deletion_flow_status (sale : Sale) (st : InvState) (pid : Nat)
    (h : status_inv st pid) :
    status_inv (restore_stock_on_sale_deletion sale st) pid := by
  unfold restore_stock_on_sale_deletion
  exact foldl_preserves
    (P := fun s => status_inv s pid)
    (fun s x hp => compensate_item_status _ x s pid hp)
    sale.items st h

theorem process_restock_status (pid2 : Nat) (qty bp sp : Int) (st : InvState) (pid : Nat)
    (h : status_inv st pid) :
    status_inv (process_restock pid2 qty bp sp st).1 pid := by
  unfold process_restock
  cases hg : getProduct st pid2 with
  | none => exact h
  | some product =>
      dsimp only
      by_cases h1 : (!product.is_active) = true
      · rw [if_pos h1]
        exact h
      rw [if_neg h1]
      by_cases h2 : product.item_type = ItemType.single
      · rw [if_pos h2]
        exact h
      rw [if_neg h2]
      by_cases h3 : qty ≤ 0
      · rw [if_pos h3]
        exact h
      rw [if_neg h3]
      by_cases h4 : bp < 0
      · rw [if_pos h4]
        exact h
      rw [if_neg h4]
      have hrm := record_movement_status pid2 qty (some "purchase") bp "" st pid h
      cases hg2 : getProduct (record_movement st pid2 qty (some "purchase") bp "") pid2 with
      | none => exact hrm
      | some p2 =>
          dsimp only
          exact status_inv_save _ hrm (product_save_status_ok _)

theorem product_update_quantity_status (pid2 : Nat) (nq : Int) (st : InvState) (pid : Nat)
    (h : status_inv st pid) :
    status_inv (product_update_quantity pid2 nq st) pid := by
  unfold product_update_quantity
  cases hg : getProduct st pid2 with
  | none => exact h
  | some p =>
      dsimp only
      by_cases hguard : p.item_type = ItemType.single ∧ ¬(nq = 0 ∨ nq = 1)
      · rw [if_pos hguard]
        exact h
      rw [if_neg hguard]
      by_cases hch : (product_save { p with quantity := nq }).quantity ≠ p.quantity
      · rw [if_pos hch]
        apply status_inv_append_entry
        exact status_inv_save _ h (product_save_status_ok _)
      · rw [if_neg hch]
        exact status_inv_save _ h (product_save_status_ok _)

theorem product_transfer_status (pid2 new_owner : Nat) (qty : Int) (new_id : Nat)
    (st : InvState) (pid : Nat) (h : status_inv st pid) :
    status_inv (product_transfer pid2 new_owner qty new_id st).1 pid := by
  unfold product_transfer
  cases hg : getProduct st pid2 with
  | none => exact h
  | some product =>
      dsimp only
      by_cases h1 : qty > product.quantity
      · rw [if_pos h1]
        exact h
      rw [if_neg h1]
      by_cases h2 : product.item_type = ItemType.single
      · rw [if_pos h2]
        apply status_inv_append_entry
        exact status_inv_save _ h (product_save_status_ok _)
      rw [if_neg h2]
      dsimp only
      apply status_inv_append_entry
      have hsave : status_inv (saveProduct st
          (product_save { product with quantity := product.quantity - qty })) pid :=
        status_inv_save _ h (product_save_status_ok _)
      refine status_inv_extend [product_save
          { id := new_id, name := product.name, category_id := product.category_id,
            item_type := product.item_type, sku_value := product.sku_value, quantity := qty,
            status := .available, buying_price := product.buying_price,
            selling_price := product.selling_price, owner_id := new_owner,
            is_active := true }] hsave rfl ?_
      intro r hr
      rw [List.mem_singleton] at hr
      subst hr
      exact product_save_status_ok _

theorem checkout_go_status (pid : Nat) :
    ∀ (lines : List CheckoutLine) (st0 st : InvState),
      status_inv st0 pid → status_inv st pid →
      status_inv (checkout_go st0 lines st).1 pid
  | [], st0, st, h0, hs => hs
  | line :: rest, st0, st, h0, hs => by
      unfold checkout_go
      cases hg : getProduct st line.product_id with
      | none => exact h0
      | some p =>
          dsimp only
          by_cases h1 : p.item_type = ItemType.bulk
          · rw [if_pos h1]
            by_cases h2 : |line.quantity| ≤ p.quantity
            · rw [if_pos h2]
              exact checkout_go_status pid rest st0 _ h0
                (record_movement_status line.product_id (-line.quantity) (some "sale")
                  line.unit_price "" st pid hs)
            · rw [if_neg h2]
              exact h0
          · rw [if_neg h1]
            by_cases h2 : p.status = ProductStatus.available
            · rw [if_pos h2]
              exact checkout_go_status pid rest st0 _ h0
                (record_movement_status line.product_id (-line.quantity) (some "sale")
                  line.unit_price "" st pid hs)
            · rw [if_neg h2]
              exact h0

theorem product_create_bulk_status (name : String) (cid : Nat) (qty bp sp : Int)
    (new_id oid : Nat) (st : InvState) (pid : Nat) (h : status_inv st pid) :
    status_inv (product_create_bulk name cid qty bp sp new_id oid st).1 pid := by
  unfold product_create_bulk
  cases hf : find_existing_bulk st name cid with
  | some existing => exact record_movement_status existing.id qty (some "purchase") bp "" st pid h
  | none =>
      dsimp only
      apply record_movement_status
      refine status_inv_extend [product_save
          { id := new_id, name := name, category_id := cid, item_type := ItemType.bulk,
            sku_value := "", quantity := 0, status := .available, buying_price := bp,
            selling_price := sp, owner_id := oid, is_active := true }] h rfl ?_
      intro r hr
      rw [List.mem_singleton] at hr
      subst hr
      exact product_save_status_ok _

theorem product_create_single_status (name : String) (cid : Nat) (sku : String)
    (bp sp : Int) (new_id oid : Nat) (st : InvState) (pid : Nat) (h : status_inv st pid) :
    status_inv (product_create_single name cid sku bp sp new_id oid st).1 pid := by
  unfold product_create_single
  by_cases h1 : sku = ""
  · rw [if_pos h1]
    exact h
  rw [if_neg h1]
  by_cases h2 : (st.products.any
      (fun p => decide (str_lower p.sku_value = str_lower sku) && p.is_active)) = true
  · rw [if_pos h2]
    exact h
  rw [if_neg h2]
  dsimp only
  apply status_inv_append_entry
  refine status_inv_extend [product_save
      { id := new_id, name := name, category_id := cid, item_type := ItemType.single,
        sku_value := sku, quantity := 1, status := .available, buying_price := bp,
        selling_price := sp, owner_id := oid, is_active := true }] h rfl ?_
  intro r hr
  rw [List.mem_singleton] at hr
  subst hr
  exact product_save_status_ok _

theorem ledgerSum_appendEntry (st : InvState) (e : StockEntry) (pid : Nat) :
    ledgerSum (appendEntry st e) pid
      = ledgerSum st pid + (if e.product_id = pid then e.quantity else 0) :=
  ledgerSum_append pid rfl

theorem product_create_bulk_establishes (name : String) (cid : Nat) (qty bp sp : Int)
    (new_id oid : Nat) (st : InvState)
    (hf : find_existing_bulk st name cid = none)
    (hfresh : ∀ p ∈ st.products, ¬ p.id = new_id)
    (hzero : ledgerSum st new_id = 0) :
    ledger_inv (product_create_bulk name cid qty bp sp new_id oid st).1 new_id := by
  unfold product_create_bulk
  rw [hf]
  dsimp only
  set pnew := product_save
      { id := new_id, name := name, category_id := cid, item_type := ItemType.bulk,
        sku_value := "", quantity := 0, status := .available, buying_price := bp,
        selling_price := sp, owner_id := oid, is_active := true } with hpnewdef
  have hid : pnew.id = new_id := by
    rw [hpnewdef, product_save_id]
  have hbulk : pnew.item_type = ItemType.bulk := by
    rw [hpnewdef, product_save_item_type]
  have hq0 : pnew.quantity = 0 := by
    rw [hpnewdef]
    exact product_save_bulk_quantity _ rfl
  have hfind : getProduct { st with products := st.products ++ [pnew] } new_id = some pnew := by
    unfold getProduct
    show (st.products ++ [pnew]).find? (fun p => decide (p.id = new_id)) = some pnew
    rw [List.find?_append]
    have h1 : st.products.find? (fun p => decide (p.id = new_id)) = none := by
      rw [List.find?_eq_none]
      intro x hx
      simp [hfresh x hx]
    rw [h1]
    simp [List.find?, hid]
  unfold record_movement
  rw [hfind]
  dsimp only
  have hq2 : (product_save { pnew with quantity := pnew.quantity + qty }).quantity
      = pnew.quantity + qty := product_save_bulk_quantity _ hbulk
  have hid2 : (product_save { pnew with quantity := pnew.quantity + qty }).id = new_id := by
    rw [product_save_id]
    exact hid
  intro q hq hqid
  rw [ledgerSum_appendEntry]
  rw [if_pos (show (new_id : Nat) = new_id from rfl)]
  have hsums : ledgerSum (saveProduct { st with products := st.products ++ [pnew] }
      (product_save { pnew with quantity := pnew.quantity + qty })) new_id
      = ledgerSum st new_id := rfl
  rw [hsums, hzero, zero_add]
  simp only [appendEntry, saveProduct, List.mem_map] at hq
  obtain ⟨q0, hq0mem, hq0eq⟩ := hq
  rw [List.mem_append] at hq0mem
  rcases hq0mem with hq0mem | hq0mem
  · by_cases hc : q0.id = (product_save { pnew with quantity := pnew.quantity + qty }).id
    · rw [if_pos hc] at hq0eq
      subst hq0eq
      rw [hq2, hq0, zero_add]
    · rw [if_neg hc] at hq0eq
      subst hq0eq
      exact absurd hqid (hfresh q0 hq0mem)
  · rw [List.mem_singleton] at hq0mem
    subst hq0mem
    rw [if_pos (hid.trans hid2.symm)] at hq0eq
    subst hq0eq
    rw [hq2, hq0, zero_add]

/-! ### The product-state projection of a compensation step (used for the
reversal/deletion equivalence): both flows act on the product rows in the
same way and differ only in the reference string of the appended entry. -/

def restore_step (ps : List Product) (item : SaleItem) : List Product :=
  match ps.find? (fun p => decide (p.id = item.product_id)) with
  | none => ps
  | some p => ps.map (fun q => if q.id = p.id then restore_product p item.quantity else q)

theorem compensate_item_products (ref : String) (st : InvState) (item : SaleItem) :
    (compensate_item ref st item).products = restore_step st.products item := by
  unfold compensate_item restore_step getProduct
  cases hg : st.products.find? (fun p => decide (p.id = item.product_id)) with
  | none => rfl
  | some p =>
      simp only [appendEntry, saveProduct]
      apply List.map_congr_left
      intro a ha
      rw [restore_product_id]

theorem foldl_compensate_products (ref : String) :
    ∀ (items : List SaleItem) (st : InvState),
      (items.foldl (compensate_item ref) st).products = items.foldl restore_step st.products
  | [], st => rfl
  | x :: xs, st => by
      rw [List.foldl_cons, List.foldl_cons, foldl_compensate_products ref xs,
        compensate_item_products]

/-! ### Concrete fixtures (the scenario data of spec §8) -/

/-- A single-kind product: one phone, in stock. -/
def phone1 : Product :=
  { id := 1, name := "S24", category_id := 1, item_type := .single, sku_value := "IMEI123",
    quantity := 1, status := .available, buying_price := 800, selling_price := 1000 }

/-- A bulk-kind product: cables, quantity 7. -/
def cable2 : Product :=
  { id := 2, name := "USB-C", category_id := 0, item_type := .bulk, quantity := 7,
    status := .available, buying_price := 3, selling_price := 5 }

/-- A store whose products all satisfy the ledger-sum and threshold
invariants. -/
def st0 : InvState :=
  { products := [phone1, cable2],
    entries :=
      [{ product_id := 1, quantity := 1, entry_type := some "purchase", unit_price := 800,
         total_amount := 800 },
       { product_id := 2, quantity := 7, entry_type := some "purchase", unit_price := 3,
         total_amount := 21 }] }

/-- A sale of 3 cables that has been marked reversed. -/
def sale5 : Sale :=
  { sale_id := 5,
    items := [{ id := 11, product_id := 2, quantity := 3, unit_price := 5, total_price := 15 }],
    is_reversed := true, total_quantity := 3, subtotal := 15, tax_amount := 2,
    total_amount := 17 }

/-- The store after the reversal of `sale5` has been processed once. -/
def st1 : InvState := restore_product_on_reversal false sale5 false st0

/-- A sale with a single remaining item (for the last-item deletion edge). -/
def sale9 : Sale :=
  { sale_id := 9,
    items := [{ id := 21, product_id := 2, quantity := 2, unit_price := 5, total_price := 10 }],
    total_quantity := 2, subtotal := 10, tax_amount := 1, total_amount := 11 }

/-- A sale with two items (so a deletion leaves one remaining). -/
def sale7 : Sale :=
  { sale_id := 7,
    items := [{ id := 31, product_id := 2, quantity := 1, unit_price := 5, total_price := 5 },
              { id := 32, product_id := 2, quantity := 2, unit_price := 5, total_price := 10 }],
    total_quantity := 3, subtotal := 15, tax_amount := 3, total_amount := 18 }

/-! ### The claims -/

/-- C2 (amended): the in-memory double-processing guard works only within
one handler invocation: when the `_reversal_processed` marker is already set
on the instance, the reversal handler is a no-op (no entries appended, no
product changed).  A later save of an already-reversed sale runs on a fresh
instance without the marker and compensates again (see the
counterexample). -/
theorem reversal_marker_noop (created : Bool) (sale : Sale) (st : InvState) :
    restore_product_on_reversal created sale true st = st := by
  unfold restore_product_on_reversal
  split
  · rfl
  split
  · rfl
  rfl

/-- C2, counterexample to the claim as stated: `sale5` is already reversed
and already compensated once (store `st1`); invoking the reversal flow again
— a post-save dispatch on a fresh instance, whose `_reversal_processed`
marker is unset — appends one more `REVERSE-5` entry and adds the item
quantity to the bulk product again (10 → 13), so it is not a no-op. -/
theorem reversal_not_idempotent_cex :
    (restore_product_on_reversal false sale5 false st1).entries.length
        = st1.entries.length + 1
    ∧ (getProduct st1 2).map (fun p => p.quantity) = some 10
    ∧ (getProduct (restore_product_on_reversal false sale5 false st1) 2).map
        (fun p => p.quantity) = some 13 := by
  decide

theorem foldl_item_deletion_products :
    ∀ (items : List SaleItem) (st : InvState),
      (items.foldl (fun s i => restore_stock_on_item_deletion i s) st).products
        = items.foldl restore_step st.products
  | [], st => rfl
  | x :: xs, st => by
      rw [List.foldl_cons, List.foldl_cons,
        foldl_item_deletion_products xs (restore_stock_on_item_deletion x st)]
      rw [show (restore_stock_on_item_deletion x st).products = restore_step st.products x from
        compensate_item_products _ st x]

/-- C3 (amended): the restore logic of reversal and deletion is identical
per item, and reversing a sale produces exactly the same product rows
(quantity and status for every product) as the admin deletion path, which
deletes the items individually before the sale; but a bare cascade
`sale.delete()` with items attached runs both the cascaded per-item
compensation and the whole-sale compensation, applying the item restore
twice — so a bulk product ends at +2×quantity instead of +quantity (the
counterexample). -/
theorem reversal_deletion_equiv :
    (∀ (sale : Sale) (st : InvState), sale.is_reversed = true →
        (restore_product_on_reversal false sale false st).products
          = (admin_delete_sale sale st).products)
    ∧ (∀ (sale : Sale) (st : InvState),
        (delete_sale sale st).products
          = sale.items.foldl restore_step (sale.items.foldl restore_step st.products)) := by
  constructor
  · intro sale st h
    have hred : restore_product_on_reversal false sale false st
        = sale.items.foldl (compensate_item ("REVERSE-" ++ toString sale.sale_id)) st := by
      unfold restore_product_on_reversal
      rw [h]
      simp
    have hadmin : (admin_delete_sale sale st).products
        = sale.items.foldl restore_step st.products :=
      foldl_item_deletion_products sale.items st
    rw [hred, foldl_compensate_products, hadmin]
  · intro sale st
    have h1 : (delete_sale sale st).products
        = sale.items.foldl restore_step
            (sale.items.foldl (fun s i => restore_stock_on_item_deletion i s) st).products := by
      unfold delete_sale restore_stock_on_sale_deletion
      exact foldl_compensate_products _ sale.items _
    rw [h1, foldl_item_deletion_products]

/-- C3, witness: on the concrete reversed sale `sale5` and store `st0`,
reversal and the admin deletion path yield the same product rows. -/
theorem reversal_deletion_equiv_witness :
    (restore_product_on_reversal false sale5 false st0).products
      = (admin_delete_sale sale5 st0).products :=
  reversal_deletion_equiv.1 sale5 st0 rfl

/-- C3, counterexample to the claim as stated: reversing `sale5` (3 cables)
on `st0` brings the bulk product from 7 to 10, but a bare cascade deletion
of the identical sale brings it to 13 — the cascaded item handler and the
sale handler each restore the 3 cables — so the resulting quantities are
not identical. -/
theorem reversal_deletion_cex :
    (getProduct (restore_product_on_reversal false sale5 false st0) 2).map
        (fun p => p.quantity) = some 10
    ∧ (getProduct (delete_sale sale5 st0) 2).map (fun p => p.quantity) = some 13
    ∧ (getProduct (delete_sale sale5 st0) 2).map (fun p => p.quantity)
        ≠ (getProduct (restore_product_on_reversal false sale5 false st0) 2).map
            (fun p => p.quantity) := by
  decide

theorem delete_sale_ledger_inv (sale : Sale) (st : InvState) (pid : Nat)
    (hb : bulk_at st pid) (h : ledger_inv st pid) :
    ledger_inv (delete_sale sale st) pid ∧ bulk_at (delete_sale sale st) pid := by
  unfold delete_sale
  have hfold := foldl_preserves
    (P := fun s => ledger_inv s pid ∧ bulk_at s pid)
    (fun s x hp => item_deletion_flow_inv x s pid hp.2 hp.1)
    sale.items st ⟨h, hb⟩
  exact deletion_flow_inv sale _ pid hfold.2 hfold.1

theorem delete_sale_status_inv (sale : Sale) (st : InvState) (pid : Nat)
    (h : status_inv st pid) : status_inv (delete_sale sale st) pid := by
  unfold delete_sale
  have hfold := foldl_preserves
    (f := fun s i => restore_stock_on_item_deletion i s)
    (P := fun s => status_inv s pid)
    (fun s x hp => compensate_item_status ("ITEM-DELETE-" ++ toString x.id) x s pid hp)
    sale.items st h
  exact deletion_flow_status sale _ pid hfold

instance (st : InvState) (pid : Nat) : Decidable (ledger_inv st pid) := by
  unfold ledger_inv
  infer_instance

instance (st : InvState) (pid : Nat) : Decidable (bulk_at st pid) := by
  unfold bulk_at
  infer_instance

instance (st : InvState) (pid : Nat) : Decidable (status_inv st pid) := by
  unfold status_inv
  infer_instance

/-- C1 (amended): for every bulk-kind product id, every stock-mutating
operation (reversal, sale deletion, sale-item deletion, restock, manual
adjustment, ownership transfer, checkout, product creation) preserves the
ledger-sum invariant `quantity = Σ deltas` — provided the id is not the
fresh row id handed to a row-creating operation — and bulk product creation
establishes the invariant for the created row.  The exception the
counterexample forces: the bulk ownership transfer creates the recipient
row with the transferred quantity and no stock entry, so that row violates
the invariant (single-kind compensation, which forces quantity to 1, is
likewise outside this statement). -/
theorem ledger_sum_invariant :
    (∀ (op : Op) (st : InvState) (pid : Nat),
        op_safe op pid → bulk_at st pid → ledger_inv st pid →
        ledger_inv (applyOp op st) pid)
    ∧ (∀ (name : String) (cid : Nat) (qty bp sp : Int) (new_id oid : Nat) (st : InvState),
        find_existing_bulk st name cid = none →
        (∀ p ∈ st.products, ¬ p.id = new_id) →
        ledgerSum st new_id = 0 →
        ledger_inv (product_create_bulk name cid qty bp sp new_id oid st).1 new_id) := by
  constructor
  · intro op st pid hsafe hb h
    cases op with
    | reversal sale => exact (reversal_flow_inv sale false false st pid hb h).1
    | sale_deletion sale => exact (deletion_flow_inv sale st pid hb h).1
    | item_deletion sale item => exact (item_deletion_flow_inv item st pid hb h).1
    | restock pid2 qty bp sp => exact (process_restock_inv pid2 qty bp sp st pid hb h).1
    | adjust pid2 nq => exact (product_update_quantity_inv pid2 nq st pid hb h).1
    | transfer pid2 owner qty nid =>
        exact (product_transfer_inv pid2 owner qty nid st pid hsafe hb h).1
    | checkout_op lines => exact (checkout_go_inv pid lines st st hb h hb h).1
    | create_bulk name cid qty bp sp nid oid =>
        exact (product_create_bulk_inv name cid qty bp sp nid oid st pid hsafe hb h).1
    | create_single name cid sku bp sp nid oid =>
        exact (product_create_single_inv name cid sku bp sp nid oid st pid hsafe hb h).1
  · intro name cid qty bp sp new_id oid st hf hfresh hzero
    exact product_create_bulk_establishes name cid qty bp sp new_id oid st hf hfresh hzero

/-- C1, witness: restocking the bulk product of `st0` preserves the
ledger-sum invariant at its id. -/
theorem ledger_sum_invariant_witness :
    ledger_inv (applyOp (Op.restock 2 5 3 0) st0) 2 :=
  ledger_sum_invariant.1 (Op.restock 2 5 3 0) st0 2 trivial (by decide) (by decide)

/-- C1, counterexample to the claim as stated: in `st0` every product
satisfies the ledger-sum invariant; after a bulk ownership transfer of 4
cables to a new owner (fresh row id 3) the newly created recipient row has
quantity 4 but no stock entries, so the invariant fails for it. -/
theorem ledger_sum_transfer_cex :
    (∀ p ∈ st0.products, ledger_inv st0 p.id)
    ∧ ¬ (∀ p ∈ (applyOp (Op.transfer 2 9 4 3) st0).products,
          ledger_inv (applyOp (Op.transfer 2 9 4 3) st0) p.id) := by
  decide

/-- C5: for every product id, every operation preserves the bulk threshold
invariant: each bulk-kind row has status `available` iff quantity > 5,
`lowstock` iff 0 < quantity ≤ 5, `outofstock` iff quantity ≤ 0 (the
`bulk_status` map).  The compensation handlers set it explicitly
(sales/signals.py) and every other save recomputes it in `product_save`. -/
theorem bulk_threshold_invariant (op : Op) (st : InvState) (pid : Nat)
    (h : status_inv st pid) : status_inv (applyOp op st) pid := by
  cases op with
  | reversal sale => exact reversal_flow_status sale false false st pid h
  | sale_deletion sale => exact deletion_flow_status sale st pid h
  | item_deletion sale item => exact compensate_item_status _ item st pid h
  | restock pid2 qty bp sp => exact process_restock_status pid2 qty bp sp st pid h
  | adjust pid2 nq => exact product_update_quantity_status pid2 nq st pid h
  | transfer pid2 owner qty nid => exact product_transfer_status pid2 owner qty nid st pid h
  | checkout_op lines => exact checkout_go_status pid lines st st h h
  | create_bulk name cid qty bp sp nid oid =>
      exact product_create_bulk_status name cid qty bp sp nid oid st pid h
  | create_single name cid sku bp sp nid oid =>
      exact product_create_single_status name cid sku bp sp nid oid st pid h

/-- C5, witness: reversing the cable sale on `st0` (7 → 10 cables) keeps
the bulk threshold status correct. -/
theorem bulk_threshold_invariant_witness :
    status_inv (applyOp (Op.reversal sale5) st0) 2 :=
  bulk_threshold_invariant (Op.reversal sale5) st0 2 (by decide)

theorem checkout_go_abort :
    ∀ (lines : List CheckoutLine) (st0 st : InvState),
      (checkout_go st0 lines st).2 ≠ none → (checkout_go st0 lines st).1 = st0
  | [], st0, st, h => absurd rfl h
  | line :: rest, st0, st, h => by
      unfold checkout_go at h ⊢
      cases hg : getProduct st line.product_id with
      | none => rfl
      | some p =>
          rw [hg] at h
          dsimp only at h ⊢
          by_cases h1 : p.item_type = ItemType.bulk
          · rw [if_pos h1] at h ⊢
            by_cases h2 : |line.quantity| ≤ p.quantity
            · rw [if_pos h2] at h ⊢
              exact checkout_go_abort rest st0 _ h
            · rw [if_neg h2]
          · rw [if_neg h1] at h ⊢
            by_cases h2 : p.status = ProductStatus.available
            · rw [if_pos h2] at h ⊢
              exact checkout_go_abort rest st0 _ h
            · rw [if_neg h2]

/-- C4: a sale line whose requested quantity exceeds the current quantity
of a bulk product is rejected.  (i) `StockEntrySerializer.validate` rejects
the entry with the precise insufficient-stock message; (ii) any failing
checkout returns the original store (all-or-nothing, no partial sale);
(iii) a checkout whose line over-requests a bulk product fails with
`insufficient_stock` and leaves the store unchanged. -/
theorem insufficient_stock_aborts :
    (∀ (p : Product) (q : Int), q ≠ 0 → |q| > p.quantity →
        stock_entry_serializer_validate (some p) q "sale"
          = some ("Cannot sell " ++ toString |q| ++ " units. Only "
              ++ toString p.quantity ++ " available."))
    ∧ (∀ (lines : List CheckoutLine) (st : InvState),
        (checkout lines st).2 ≠ none → (checkout lines st).1 = st)
    ∧ (∀ (line : CheckoutLine) (rest : List CheckoutLine) (st : InvState) (p : Product),
        getProduct st line.product_id = some p → p.item_type = .bulk →
        |line.quantity| > p.quantity →
        checkout (line :: rest) st
          = (st, some (.insufficient_stock |line.quantity| p.quantity))) := by
  refine ⟨?_, ?_, ?_⟩
  · intro p q hq0 hgt
    unfold stock_entry_serializer_validate
    rw [if_neg hq0]
    dsimp only
    rw [if_neg (fun hcon => absurd hcon.2.1 (by decide)), if_pos ⟨rfl, hgt⟩]
  · intro lines st h
    exact checkout_go_abort lines st st h
  · intro line rest st p hg hbulk hgt
    unfold checkout checkout_go
    rw [hg]
    dsimp only
    rw [if_pos hbulk, if_neg (not_le.mpr hgt)]

/-- C4, witness: requesting 8 cables when 7 are in stock fails with
`insufficient_stock` and leaves the store `st0` unchanged. -/
theorem insufficient_stock_aborts_witness :
    checkout [{ product_id := 2, quantity := 8, unit_price := 5 }] st0
      = (st0, some (.insufficient_stock 8 7)) :=
  insufficient_stock_aborts.2.2 { product_id := 2, quantity := 8, unit_price := 5 } [] st0
    cable2 (by decide) rfl (by decide)

/-- C6 (amended): a zero quantity is rejected by
`StockEntrySerializer.validate` for every product and entry type; but the
ownership transfer of a single item records a zero-delta adjustment entry
directly (inventory/views.py lines 920-928), so zero-delta entries do reach
the ledger. -/
theorem zero_delta_rejected :
    (∀ (product : Option Product) (entry_type : String),
        stock_entry_serializer_validate product 0 entry_type
          = some "Quantity cannot be zero")
    ∧ (∀ (st : InvState) (pid owner : Nat) (qty : Int) (nid : Nat) (p : Product),
        getProduct st pid = some p → p.item_type = .single → ¬ qty > p.quantity →
        (product_transfer pid owner qty nid st).1.entries
          = st.entries ++ [{ product_id := pid, quantity := 0,
                             entry_type := some "adjustment",
                             unit_price := p.buying_price,
                             total_amount := 0, reference_id := "" }]) := by
  constructor
  · intro product entry_type
    unfold stock_entry_serializer_validate
    rw [if_pos rfl]
  · intro st pid owner qty nid p hg hsingle hqty
    unfold product_transfer
    rw [hg]
    dsimp only
    rw [if_neg hqty, if_pos hsingle]
    rfl

/-- C6, witness: transferring the single phone of `st0` appends exactly the
zero-delta adjustment entry. -/
theorem zero_delta_rejected_witness :
    (product_transfer 1 9 1 3 st0).1.entries
      = st0.entries ++ [{ product_id := 1, quantity := 0, entry_type := some "adjustment",
                          unit_price := 800, total_amount := 0, reference_id := "" }] :=
  zero_delta_rejected.2 st0 1 9 1 3 phone1 (by decide) rfl (by decide)

/-- C6, counterexample to the claim as stated: no entry of `st0` has a zero
delta, yet after transferring the single phone to another owner the ledger
contains an entry with delta 0. -/
theorem zero_delta_recorded_cex :
    (∀ e ∈ st0.entries, e.quantity ≠ 0)
    ∧ (∃ e ∈ (product_transfer 1 9 1 3 st0).1.entries, e.quantity = 0) := by
  decide

/-- C7: a single-kind product with quantity 1 cannot be restocked: the
serializer rejects a purchase entry with the message naming the reason, and
`process_restock` fails with its single-item message, returning the store
unchanged (so quantity and status are untouched). -/
theorem single_restock_rejected (st : InvState) (pid : Nat) (p : Product)
    (hg : getProduct st pid = some p) (hsingle : p.item_type = .single)
    (hactive : p.is_active = true) (hq : p.quantity = 1) :
    stock_entry_serializer_validate (some p) 1 "purchase"
        = some "Single items cannot be restocked. Create a new product instead."
    ∧ (∀ qty bp sp : Int,
        process_restock pid qty bp sp st = (st, some "Cannot restock single items")) := by
  constructor
  · unfold stock_entry_serializer_validate
    rw [if_neg (by decide)]
    dsimp only
    rw [if_neg (fun hcon => hcon.2.2 (by decide))]
    rw [if_neg (fun hcon => absurd hcon.1 (by decide))]
    rw [if_pos ⟨hsingle, rfl, by rw [hq]; decide⟩]
  · intro qty bp sp
    unfold process_restock
    rw [hg]
    dsimp only
    rw [if_neg (by rw [hactive]; decide), if_pos hsingle]

/-- C7, witness at the concrete phone of `st0`. -/
theorem single_restock_rejected_witness :
    stock_entry_serializer_validate (some phone1) 1 "purchase"
        = some "Single items cannot be restocked. Create a new product instead."
    ∧ process_restock 1 5 10 0 st0 = (st0, some "Cannot restock single items") :=
  ⟨(single_restock_rejected st0 1 phone1 (by decide) rfl rfl rfl).1,
   (single_restock_rejected st0 1 phone1 (by decide) rfl rfl rfl).2 5 10 0⟩

theorem compensate_foldlM_fail (ref : String) :
    ∀ (items : List SaleItem) (k : Nat) (st : InvState) (i : Nat),
      k ≤ i → i < k + items.length →
      items.foldlM (compensate_item_fallible ref (some i)) (k, st)
        = Except.error "stock entry creation failed"
  | [], k, st, i, hle, hlt => by
      simp only [List.length_nil, Nat.add_zero] at hlt
      exact absurd (hle.trans_lt hlt) (lt_irrefl k)
  | x :: xs, k, st, i, hle, hlt => by
      rw [List.foldlM_cons]
      unfold compensate_item_fallible
      by_cases hik : (some i : Option Nat) = some (k, st).1
      · rw [if_pos hik]
        rfl
      · rw [if_neg hik]
        have hkne : i ≠ k := by simpa using hik
        have hk1 : k + 1 ≤ i := by omega
        have hk2 : i < (k + 1) + xs.length := by
          simp only [List.length_cons] at hlt
          omega
        show (xs.foldlM (compensate_item_fallible ref (some i))
          ((k, st).1 + 1, compensate_item ref (k, st).2 x)) = _
        exact compensate_foldlM_fail ref xs (k + 1) _ i hk1 hk2

/-- C8 (amended): an error raised while compensating (here: the i-th
stock-entry creation failing inside the handler loop) aborts the enclosing
`transaction.atomic()` — the store rolls back to its pre-handler state, so
ledger and product rows are untouched — but the
`except Exception: logger.exception(...)` of the handler catches it, so nothing is
surfaced to the caller of `sale.save()` / sale deletion: the second
component (the exception escaping the handler) is `none`. -/
theorem compensation_error_swallowed :
    (∀ (sale : Sale) (st : InvState) (i : Nat),
        sale.is_reversed = true → i < sale.items.length →
        restore_product_on_reversal_fallible false sale false (some i) st = (st, none))
    ∧ (∀ (sale : Sale) (st : InvState) (i : Nat),
        i < sale.items.length →
        restore_stock_on_sale_deletion_fallible sale (some i) st = (st, none)) := by
  constructor
  · intro sale st i hrev hlt
    unfold restore_product_on_reversal_fallible
    rw [hrev]
    have hfail := compensate_foldlM_fail ("REVERSE-" ++ toString sale.sale_id)
      sale.items 0 st i (Nat.zero_le i) (by omega)
    simp only [Bool.not_true]
    rw [hfail]
    rfl
  · intro sale st i hlt
    unfold restore_stock_on_sale_deletion_fallible
    have hfail := compensate_foldlM_fail ("DELETE-" ++ toString sale.sale_id)
      sale.items 0 st i (Nat.zero_le i) (by omega)
    rw [hfail]

/-- C8, witness: injecting a failure at the first item of the reversal of
`sale5` rolls the store back to `st0` and surfaces nothing. -/
theorem compensation_error_swallowed_witness :
    restore_product_on_reversal_fallible false sale5 false (some 0) st0 = (st0, none) :=
  compensation_error_swallowed.1 sale5 st0 0 rfl (by decide)

/-- C8, counterexample to the claim as stated: the compensation loop for
`sale5` genuinely raises (the fold is an error), yet the reversal flow
reports no failure to its caller — the error is logged and swallowed, not
surfaced as the failure result of the operation. -/
theorem compensation_error_not_surfaced_cex :
    sale5.items.foldlM
        (compensate_item_fallible ("REVERSE-" ++ toString sale5.sale_id) (some 0)) (0, st0)
      = Except.error "stock entry creation failed"
    ∧ (restore_product_on_reversal_fallible false sale5 false (some 0) st0).2 = none := by
  constructor
  · rfl
  · rfl

/-- C9 (amended): deleting one sale item appends exactly one compensating
`ITEM-DELETE-<item-id>` stock entry for the product of that item, and when
at least one item remains the totals of the parent sale are recomputed so that
total_quantity = Σ remaining quantities, subtotal = Σ remaining line
totals and total_amount = subtotal + tax_amount; when the deleted item was
the last one the totals are left unchanged (the counterexample). -/
theorem item_deletion_totals (sale : Sale) (item : SaleItem) (st : InvState) (p : Product)
    (hg : getProduct st item.product_id = some p) :
    ((delete_sale_item sale item st).2.entries
        = st.entries ++ [{ product_id := item.product_id, quantity := item.quantity,
                           entry_type := none, unit_price := item.unit_price,
                           total_amount := |item.quantity * item.unit_price|,
                           reference_id := "ITEM-DELETE-" ++ toString item.id }])
    ∧ (sale.items.filter (fun i => decide (i.id ≠ item.id)) ≠ [] →
        (delete_sale_item sale item st).1.total_quantity
            = ((sale.items.filter (fun i => decide (i.id ≠ item.id))).map
                (fun i => i.quantity)).sum
        ∧ (delete_sale_item sale item st).1.subtotal
            = ((sale.items.filter (fun i => decide (i.id ≠ item.id))).map
                (fun i => i.total_price)).sum
        ∧ (delete_sale_item sale item st).1.total_amount
            = (delete_sale_item sale item st).1.subtotal + sale.tax_amount) := by
  constructor
  · unfold delete_sale_item restore_stock_on_item_deletion compensate_item
    rw [hg]
    rfl
  · intro hne
    unfold delete_sale_item update_sale_totals_on_item_deletion
    dsimp only
    cases hrem : sale.items.filter (fun i => decide (i.id ≠ item.id)) with
    | nil => exact absurd hrem hne
    | cons a l => exact ⟨rfl, rfl, rfl⟩

/-- C9, witness: deleting the first of the two items of `sale7` appends the
compensating entry and recomputes the totals from the remaining item. -/
theorem item_deletion_totals_witness :
    (delete_sale_item sale7
        { id := 31, product_id := 2, quantity := 1, unit_price := 5, total_price := 5 }
        st0).1.total_quantity
      = ((sale7.items.filter (fun i => decide (i.id ≠ 31))).map (fun i => i.quantity)).sum
    ∧ (delete_sale_item sale7
        { id := 31, product_id := 2, quantity := 1, unit_price := 5, total_price := 5 }
        st0).2.entries
      = st0.entries ++ [{ product_id := 2, quantity := 1, entry_type := none, unit_price := 5,
                          total_amount := |(1 : Int) * 5|,
                          reference_id := "ITEM-DELETE-" ++ toString (31 : Nat) }] :=
  ⟨((item_deletion_totals sale7
      { id := 31, product_id := 2, quantity := 1, unit_price := 5, total_price := 5 }
      st0 cable2 (by decide)).2 (by decide)).1,
   (item_deletion_totals sale7
      { id := 31, product_id := 2, quantity := 1, unit_price := 5, total_price := 5 }
      st0 cable2 (by decide)).1⟩

/-- C9, counterexample to the claim as stated: deleting the only item of
`sale9` leaves the parent totals untouched (only a warning is logged), so
total_quantity (still 2) differs from the sum over the zero remaining
items. -/
theorem item_deletion_last_item_cex :
    (delete_sale_item sale9
        { id := 21, product_id := 2, quantity := 2, unit_price := 5, total_price := 10 }
        st0).1.total_quantity
      ≠ ((sale9.items.filter (fun i => decide (i.id ≠ 21))).map (fun i => i.quantity)).sum := by
  decide

theorem find?_map_update (ps : List Product) (pid : Nat) (p2 : Product) (h2 : p2.id = pid) :
    (ps.find? (fun p => decide (p.id = pid))).isSome →
    (ps.map (fun q => if q.id = p2.id then p2 else q)).find? (fun p => decide (p.id = pid))
      = some p2 := by
  induction ps with
  | nil =>
      intro hex
      simp [List.find?] at hex
  | cons a as ih =>
      intro hex
      by_cases hc : a.id = pid
      · have hcc : a.id = p2.id := hc.trans h2.symm
        rw [List.map_cons, if_pos hcc]
        exact List.find?_cons_of_pos _ (by simp [h2])
      · have hcc : ¬ a.id = p2.id := fun hcon => hc (hcon.trans h2)
        rw [List.map_cons, if_neg hcc]
        rw [List.find?_cons_of_neg _ (by simp [hc])]
        apply ih
        rw [List.find?_cons_of_neg _ (by simp [hc])] at hex
        exact hex

/-- C10: creating a bulk product whose name matches an existing active
product of the same category case-insensitively does not create a second
row: the view reuses the matching product (returning its id), appends one
purchase entry for the requested quantity on it, and the quantity of that
product grows by the requested quantity. -/
theorem bulk_create_merges (st : InvState) (name : String) (cid : Nat) (qty bp sp : Int)
    (nid oid : Nat) (existing : Product)
    (hf : find_existing_bulk st name cid = some existing)
    (hg : getProduct st existing.id = some existing)
    (hbulk : existing.item_type = .bulk) :
    (product_create_bulk name cid qty bp sp nid oid st).2 = existing.id
    ∧ (product_create_bulk name cid qty bp sp nid oid st).1.products.length
        = st.products.length
    ∧ (product_create_bulk name cid qty bp sp nid oid st).1.entries
        = st.entries ++ [{ product_id := existing.id, quantity := qty,
                           entry_type := some "purchase", unit_price := bp,
                           total_amount := |qty| * bp, reference_id := "" }]
    ∧ (getProduct (product_create_bulk name cid qty bp sp nid oid st).1 existing.id).map
        (fun p => p.quantity) = some (existing.quantity + qty) := by
  have hred : product_create_bulk name cid qty bp sp nid oid st
      = (record_movement st existing.id qty (some "purchase") bp "", existing.id) := by
    unfold product_create_bulk
    rw [hf]
  rw [hred]
  unfold record_movement
  rw [hg]
  refine ⟨rfl, ?_, rfl, ?_⟩
  · show (st.products.map _).length = st.products.length
    rw [List.length_map]
  · have hid2 : (product_save { existing with quantity := existing.quantity + qty }).id
        = existing.id := product_save_id _
    have hfind : getProduct (appendEntry (saveProduct st
        (product_save { existing with quantity := existing.quantity + qty }))
        { product_id := existing.id, quantity := qty, entry_type := some "purchase",
          unit_price := bp, total_amount := |qty| * bp, reference_id := "" }) existing.id
        = some (product_save { existing with quantity := existing.quantity + qty }) := by
      show (st.products.map _).find? _ = _
      exact find?_map_update st.products existing.id _ hid2 (by rw [show st.products.find?
        (fun p => decide (p.id = existing.id)) = some existing from hg]; rfl)
    rw [hfind]
    dsimp only [Option.map]
    rw [product_save_bulk_quantity { existing with quantity := existing.quantity + qty } hbulk]

/-- C10, witness: creating "usb-c" in the cable category merges into the
existing `cable2` row of `st0` (7 + 4 = 11 cables, one purchase entry). -/
theorem bulk_create_merges_witness :
    (product_create_bulk "usb-c" 0 4 3 5 9 7 st0).2 = 2
    ∧ (getProduct (product_create_bulk "usb-c" 0 4 3 5 9 7 st0).1 2).map
        (fun p => p.quantity) = some 11 :=
  ⟨(bulk_create_merges st0 "usb-c" 0 4 3 5 9 7 cable2 (by decide) (by decide) rfl).1,
   (bulk_create_merges st0 "usb-c" 0 4 3 5 9 7 cable2 (by decide) (by decide) rfl).2.2.2⟩
